import Mathlib

/-!
Verification of the blazersroundup publishing service.

The definitions below are shallow embeddings of the JavaScript source in
src/web/server.js, src/server.js and src/unnamed/part_001 of the repository.
Texts are modelled as lists of Unicode code points; machine timestamps as
natural numbers; database rows as association lists; the fallible network
provider as explicit outcome parameters.
-/

namespace BlazersRoundup

/-! ## Link facets (web/server.js, first revision, lines 246-258)

The JS helper scans a text with the regular expression pattern
https?://\S+ (global), recording for each match its UTF-16 index span,
and then maps every span to a facet whose byteStart and byteEnd are the
UTF-8 byte lengths of the text prefixes ending at the span's start and
end.  Match boundaries always fall on code-point boundaries, so the text
is modelled as a list of code points. -/

/-- Characters matched by the JavaScript regular expression class for
whitespace, per ECMA-262 (WhiteSpace and LineTerminator code points). -/
def jsSpace (c : Char) : Bool :=
  c = ' ' ∨ c = '\t' ∨ c = '\n' ∨ (c = Char.ofNat 0x0b) ∨ (c = Char.ofNat 0x0c) ∨
  c = '\r' ∨ (c = Char.ofNat 0xa0) ∨ (c = Char.ofNat 0x1680) ∨
  (0x2000 ≤ c.toNat ∧ c.toNat ≤ 0x200a) ∨ (c = Char.ofNat 0x2028) ∨
  (c = Char.ofNat 0x2029) ∨ (c = Char.ofNat 0x202f) ∨ (c = Char.ofNat 0x205f) ∨
  (c = Char.ofNat 0x3000) ∨ (c = Char.ofNat 0xfeff)

/-- Length of the maximal prefix made of non-whitespace characters:
the greedy run consumed by the one-or-more non-space part of the pattern. -/
def takeNonSpace : List Char → Nat
  | [] => 0
  | c :: rest => if jsSpace c then 0 else takeNonSpace rest + 1

/-- Consume an exact literal from the front of a list of characters,
returning the remainder when the literal is present. -/
def stripLit : List Char → List Char → Option (List Char)
  | [], l => some l
  | _ :: _, [] => none
  | c :: cs, a :: as => if a = c then stripLit cs as else none

/-- Length of the regular-expression match https?://\S+ anchored at the
front of the list, or none when there is no match there.  The optional
letter s is tried greedily first, exactly as the JS engine does; the run
after the scheme must be non-empty. -/
def urlMatchLen (l : List Char) : Option Nat :=
  match stripLit "https://".data l with
  | some rest => let n := takeNonSpace rest; if n = 0 then none else some (8 + n)
  | none =>
    match stripLit "http://".data l with
    | some rest => let n := takeNonSpace rest; if n = 0 then none else some (7 + n)
    | none => none

/-- Fuelled scan mirroring repeated exec with a global regex: from each
position either take the match starting there and resume after its end
(the engine's lastIndex), or advance one character.  Fuel bounds the
number of steps; the callers pass the text length, which suffices. -/
def scanUrlsF : Nat → List Char → Nat → List (Nat × Nat)
  | 0, _, _ => []
  | _ + 1, [], _ => []
  | fuel + 1, l@(_ :: rest), i =>
    match urlMatchLen l with
    | some n => (i, i + n) :: scanUrlsF fuel (l.drop n) (i + n)
    | none => scanUrlsF fuel rest (i + 1)

/-- All URL-shaped spans of a text, as pairs of code-point indices. -/
def scanUrls (l : List Char) : List (Nat × Nat) := scanUrlsF l.length l 0

/-- UTF-8 byte length of a list of code points, as Buffer.byteLength
computes it for a well-formed string. -/
def utf8Len (l : List Char) : Nat := (l.map Char.utf8Size).sum

/-- One link annotation: byte offsets into the UTF-8 encoding plus the
matched URL itself (the feature uri). -/
structure Facet where
  byteStart : Nat
  byteEnd : Nat
  uri : List Char
  deriving Repr, DecidableEq

/-- The linkFacets helper of web/server.js lines 246-258: one facet per
span, with byteStart and byteEnd the UTF-8 byte lengths of the prefixes
ending at the span's start and end (text.slice then Buffer.byteLength). -/
def linkFacets (text : List Char) : List Facet :=
  (scanUrls text).map fun s =>
    { byteStart := utf8Len (text.take s.1)
      byteEnd := utf8Len (text.take s.2)
      uri := (text.drop s.1).take (s.2 - s.1) }

example : scanUrls "é https://x".data = [(2, 11)] := by decide
example : linkFacets "é https://x".data = [⟨3, 12, "https://x".data⟩] := by decide
example : scanUrls "http:// nope".data = [] := by decide
example : scanUrls "a http://b https://c".data = [(2, 10), (11, 20)] := by decide

lemma stripLit_length {lit l rest : List Char} (h : stripLit lit l = some rest) :
    l.length = lit.length + rest.length := by
  induction lit generalizing l with
  | nil => simp [stripLit] at h; simp [h]
  | cons c cs ih =>
    cases l with
    | nil => simp [stripLit] at h
    | cons a as =>
      simp only [stripLit] at h
      split at h
      · have := ih h
        simp only [List.length_cons]
        omega
      · exact absurd h (by simp)

lemma takeNonSpace_le (l : List Char) : takeNonSpace l ≤ l.length := by
  induction l with
  | nil => simp [takeNonSpace]
  | cons c rest ih =>
    simp only [takeNonSpace, List.length_cons]
    split
    · omega
    · omega

lemma urlMatchLen_bounds {l : List Char} {n : Nat} (h : urlMatchLen l = some n) :
    1 ≤ n ∧ n ≤ l.length := by
  unfold urlMatchLen at h
  split at h
  case h_1 rest heq =>
    have hlen := stripLit_length heq
    have hts := takeNonSpace_le rest
    simp only at h
    split at h
    · exact absurd h (by simp)
    · simp only [Option.some.injEq] at h
      simp [String.data] at hlen
      omega
  case h_2 =>
    split at h
    case h_1 rest heq =>
      have hlen := stripLit_length heq
      have hts := takeNonSpace_le rest
      simp only at h
      split at h
      · exact absurd h (by simp)
      · simp only [Option.some.injEq] at h
        simp [String.data] at hlen
        omega
    case h_2 => exact absurd h (by simp)

lemma scanUrlsF_sound :
    ∀ (fuel : Nat) (l : List Char) (i : Nat), l.length ≤ fuel →
      ∀ m ∈ scanUrlsF fuel l i,
        i ≤ m.1 ∧ m.1 < m.2 ∧ m.2 ≤ i + l.length ∧
        urlMatchLen (l.drop (m.1 - i)) = some (m.2 - m.1) := by
  intro fuel
  induction fuel with
  | zero => intro l i _ m hm; simp [scanUrlsF] at hm
  | succ fuel ih =>
    intro l i hlen m hm
    cases l with
    | nil => simp [scanUrlsF] at hm
    | cons c rest =>
      simp only [scanUrlsF] at hm
      split at hm
      case h_1 n heq =>
        have hb := urlMatchLen_bounds heq
        rcases List.mem_cons.mp hm with h | h
        · subst h
          refine ⟨Nat.le_refl _, by omega, by omega, ?_⟩
          simpa using heq
        · have hdl : ((c :: rest).drop n).length ≤ fuel := by
            simp only [List.length_drop]
            simp at hlen hb ⊢
            omega
          obtain ⟨h1, h2, h3, h4⟩ := ih ((c :: rest).drop n) (i + n) hdl m h
          refine ⟨by omega, h2, ?_, ?_⟩
          · simp only [List.length_drop, List.length_cons] at h3 hb ⊢
            omega
          · rw [List.drop_drop] at h4
            have harith : n + (m.1 - (i + n)) = m.1 - i := by omega
            rwa [harith] at h4
      case h_2 =>
        have hdl : rest.length ≤ fuel := by simp at hlen; omega
        obtain ⟨h1, h2, h3, h4⟩ := ih rest (i + 1) hdl m hm
        refine ⟨by omega, h2, by simp only [List.length_cons] at h3 ⊢; omega, ?_⟩
        have hr : rest = (c :: rest).drop 1 := rfl
        rw [hr, List.drop_drop] at h4
        have harith : 1 + (m.1 - (i + 1)) = m.1 - i := by omega
        rwa [harith] at h4

lemma scanUrlsF_chain :
    ∀ (fuel : Nat) (l : List Char) (i : Nat), l.length ≤ fuel →
      List.Chain' (fun a b : Nat × Nat => a.2 ≤ b.1) (scanUrlsF fuel l i) := by
  intro fuel
  induction fuel with
  | zero => intro l i _; simp [scanUrlsF]
  | succ fuel ih =>
    intro l i hlen
    cases l with
    | nil => simp [scanUrlsF]
    | cons c rest =>
      simp only [scanUrlsF]
      split
      case h_1 n heq =>
        have hb := urlMatchLen_bounds heq
        have hdl : ((c :: rest).drop n).length ≤ fuel := by
          simp only [List.length_drop]
          simp at hlen hb ⊢
          omega
        refine (ih _ _ hdl).cons' ?_
        intro y hy
        have hmem : y ∈ scanUrlsF fuel ((c :: rest).drop n) (i + n) :=
          List.mem_of_mem_head? hy
        exact (scanUrlsF_sound fuel _ _ hdl y hmem).1
      case h_2 =>
        exact ih rest (i + 1) (by simp at hlen; omega)

lemma scanUrlsF_complete :
    ∀ (fuel : Nat) (l : List Char) (i : Nat), l.length ≤ fuel →
      ∀ j, i ≤ j → j < i + l.length →
        (∀ m ∈ scanUrlsF fuel l i, ¬(m.1 ≤ j ∧ j < m.2)) →
        urlMatchLen (l.drop (j - i)) = none := by
  intro fuel
  induction fuel with
  | zero => intro l i hlen j hij hjl _; omega
  | succ fuel ih =>
    intro l i hlen j hij hjl hnc
    cases l with
    | nil => simp at hjl; omega
    | cons c rest =>
      simp only [scanUrlsF] at hnc
      rcases heq : urlMatchLen (c :: rest) with _ | n
      · rcases Nat.eq_or_lt_of_le hij with h | h
        · subst h; simpa using heq
        · have hdl : rest.length ≤ fuel := by simp at hlen; omega
          have := ih rest (i + 1) hdl j (by omega) (by simp at hjl ⊢; omega)
            (fun m hm => by
              apply hnc
              rw [heq]
              exact hm)
          have hr : rest = (c :: rest).drop 1 := rfl
          rw [hr, List.drop_drop] at this
          have harith : 1 + (j - (i + 1)) = j - i := by omega
          rwa [harith] at this
      · rw [heq] at hnc
        have hb := urlMatchLen_bounds heq
        have hhead := hnc (i, i + n) (List.mem_cons_self _ _)
        simp only at hhead
        have hjn : i + n ≤ j := by omega
        have hdl : ((c :: rest).drop n).length ≤ fuel := by
          simp only [List.length_drop]
          simp at hlen hb ⊢
          omega
        have := ih ((c :: rest).drop n) (i + n) hdl j (by omega)
          (by simp only [List.length_drop]; simp at hjl hb ⊢; omega)
          (fun m hm => hnc m (List.mem_cons_of_mem _ hm))
        rw [List.drop_drop] at this
        have harith : n + (j - (i + n)) = j - i := by omega
        rwa [harith] at this

lemma utf8Len_append (a b : List Char) : utf8Len (a ++ b) = utf8Len a + utf8Len b := by
  simp [utf8Len]

lemma utf8Len_pos {l : List Char} (h : l ≠ []) : 0 < utf8Len l := by
  cases l with
  | nil => exact absurd rfl h
  | cons c rest =>
    have := Char.utf8Size_pos c
    simp [utf8Len]
    omega

lemma utf8Len_take_lt {l : List Char} {a b : Nat} (hab : a < b) (hb : b ≤ l.length) :
    utf8Len (l.take a) < utf8Len (l.take b) := by
  have hsplit : l.take b = l.take a ++ (l.drop a).take (b - a) := by
    have h1 : b = a + (b - a) := by omega
    rw [h1, List.take_add]
    have h2 : a + (b - a) - a = b - a := by omega
    rw [h2]
  rw [hsplit, utf8Len_append]
  have hne : (l.drop a).take (b - a) ≠ [] := by
    have hlen : ((l.drop a).take (b - a)).length = b - a := by
      simp only [List.length_take, List.length_drop]
      omega
    intro hcon
    rw [hcon] at hlen
    simp at hlen
    omega
  have := utf8Len_pos hne
  omega

/-- C1: for every input text, linkFacets returns exactly one annotation per
non-overlapping URL-shaped match (scheme http or https followed by at least
one non-whitespace character): the facet list is the image of the computed
span list, has the same length, the spans are pairwise non-overlapping and
each is a genuine match with start strictly below end, no position outside
the spans starts a match, and each annotation's byteStart (resp. byteEnd)
is the UTF-8 byte length of the text's prefix ending at the match's start
(resp. end), with byteStart strictly less than byteEnd. -/
theorem c1_link_annotation_offsets (text : List Char) :
    linkFacets text =
      (scanUrls text).map (fun s =>
        ⟨utf8Len (text.take s.1), utf8Len (text.take s.2), (text.drop s.1).take (s.2 - s.1)⟩) ∧
    (linkFacets text).length = (scanUrls text).length ∧
    List.Chain' (fun a b : Nat × Nat => a.2 ≤ b.1) (scanUrls text) ∧
    (∀ m ∈ scanUrls text, m.1 < m.2 ∧ m.2 ≤ text.length ∧
      urlMatchLen (text.drop m.1) = some (m.2 - m.1)) ∧
    (∀ j, j < text.length → (∀ m ∈ scanUrls text, ¬(m.1 ≤ j ∧ j < m.2)) →
      urlMatchLen (text.drop j) = none) ∧
    (∀ f ∈ linkFacets text, f.byteStart < f.byteEnd) := by
  have hsound := scanUrlsF_sound text.length text 0 (Nat.le_refl _)
  refine ⟨rfl, by simp [linkFacets], ?_, ?_, ?_, ?_⟩
  · exact scanUrlsF_chain text.length text 0 (Nat.le_refl _)
  · intro m hm
    obtain ⟨_, h2, h3, h4⟩ := hsound m hm
    simp only [Nat.zero_add] at h3
    simp only [Nat.sub_zero] at h4
    exact ⟨h2, h3, h4⟩
  · intro j hj hnc
    have := scanUrlsF_complete text.length text 0 (Nat.le_refl _) j (Nat.zero_le _)
      (by omega) hnc
    simpa using this
  · intro f hf
    simp only [linkFacets, List.mem_map] at hf
    obtain ⟨m, hm, hfm⟩ := hf
    obtain ⟨_, h2, h3, _⟩ := hsound m hm
    simp only [Nat.zero_add] at h3
    rw [← hfm]
    exact utf8Len_take_lt h2 h3

/-- Concrete check of C1 on a text with a two-byte character before the
URL: the scanner finds the span and its facet's byte offsets count bytes. -/
theorem c1_link_annotation_offsets_witness :
    2 < 11 ∧ 11 ≤ ("é https://x".data).length ∧
    urlMatchLen (("é https://x".data).drop 2) = some (11 - 2) :=
  (c1_link_annotation_offsets "é https://x".data).2.2.2.1 (2, 11) (by decide)

/-! ## The publish endpoint (web/server.js, first revision, lines 206-292)

POST /post-thread: check the X-Internal-Token header against the
configured INTERNAL_API_TOKEN (401 on mismatch), check both body texts
for JS truthiness (400 when either is missing or empty), build an agent
from the stored OAuth session (getAgent: one database read; throws when
no row exists or the restore fails, caught as a 500), then submit the
first post with its link facets, and on its success submit the second
post with a reply reference whose root and parent are both the first
post's uri and cid.  A failure of either submission is caught and
surfaced as 500; nothing is deleted.  Creation timestamps are abstracted
away (they do not affect any claim). -/

/-- Identity the provider assigns to a created post. -/
structure PostRef where
  uri : String
  cid : String
  deriving Repr, DecidableEq

/-- Reply reference submitted with the second post. -/
structure ReplyRef where
  root : PostRef
  parent : PostRef
  deriving Repr, DecidableEq

/-- One submission to the provider: agent.post's text, facets and reply. -/
structure ProviderCall where
  text : String
  facets : List Facet
  reply : Option ReplyRef
  deriving Repr, DecidableEq

/-- HTTP responses of the first-revision /post-thread route. -/
inductive Resp where
  | unauthorized
  | badRequest
  | postFailed
  | ok (first reply : PostRef)
  deriving Repr, DecidableEq

/-- HTTP status code of each response of the first-revision route. -/
def Resp.status : Resp → Nat
  | .unauthorized => 401
  | .badRequest => 400
  | .postFailed => 500
  | .ok _ _ => 200

/-- Result of one invocation: the response, the trace of provider post
submissions in order, the provider-side list of created posts (pairs of
text and assigned identity, appended on every successful submission),
and how many credential-store reads the handler performed. -/
structure PTResult where
  resp : Resp
  calls : List ProviderCall
  created : List (String × PostRef)
  storeReads : Nat
  deriving Repr, DecidableEq

/-- The first-revision /post-thread handler.  secret is
INTERNAL_API_TOKEN, tok the request's X-Internal-Token header, the two
texts are the optional body fields (none models an absent field),
sessionRow models the stored oauth_sessions row getAgent reads,
restoreOk whether oauth.restore succeeds, out1 and out2 the provider's
responses to the two submissions (none models a rejected submission),
and created the provider's pre-existing posts. -/
def postThread (secret tok : String) (firstText? secondText? : Option String)
    (sessionRow : Option String) (restoreOk : Bool)
    (out1 out2 : Option PostRef) (created : List (String × PostRef)) : PTResult :=
  if tok ≠ secret then
    ⟨.unauthorized, [], created, 0⟩
  else
    let firstText := firstText?.getD ""
    let secondText := secondText?.getD ""
    if firstText = "" ∨ secondText = "" then
      ⟨.badRequest, [], created, 0⟩
    else
      match sessionRow with
      | none => ⟨.postFailed, [], created, 1⟩
      | some _ =>
        if !restoreOk then ⟨.postFailed, [], created, 1⟩
        else
          let c1 : ProviderCall := ⟨firstText, linkFacets firstText.data, none⟩
          match out1 with
          | none => ⟨.postFailed, [c1], created, 1⟩
          | some p1 =>
            let c2 : ProviderCall :=
              ⟨secondText, linkFacets secondText.data, some ⟨p1, p1⟩⟩
            match out2 with
            | none => ⟨.postFailed, [c1, c2], created ++ [(firstText, p1)], 1⟩
            | some p2 =>
              ⟨.ok p1 p2, [c1, c2],
                created ++ [(firstText, p1), (secondText, p2)], 1⟩

/-- C2: when the first submission succeeds and the second fails, the caller
observes the 500 error response, yet the first post stays in the provider's
created list (the handler deletes nothing), and re-invoking the same call
appends a second copy of the first post. -/
theorem c2_no_rollback_duplicate_on_retry (secret f s row : String)
    (p1 p1' : PostRef) (created : List (String × PostRef))
    (hf : f ≠ "") (hs : s ≠ "") :
    (postThread secret secret (some f) (some s) (some row) true (some p1) none
        created).resp = .postFailed ∧
    Resp.status .postFailed = 500 ∧
    (postThread secret secret (some f) (some s) (some row) true (some p1) none
        created).created = created ++ [(f, p1)] ∧
    (postThread secret secret (some f) (some s) (some row) true (some p1') none
        (created ++ [(f, p1)])).created = created ++ [(f, p1)] ++ [(f, p1')] := by
  refine ⟨?_, rfl, ?_, ?_⟩ <;> simp [postThread, hf, hs]

/-- Concrete check of C2: both invocations evaluated on explicit data. -/
theorem c2_no_rollback_duplicate_on_retry_witness :
    (postThread "t" "t" (some "a") (some "b") (some "r") true
        (some ⟨"u1", "c1"⟩) none []).resp = .postFailed ∧
    Resp.status .postFailed = 500 ∧
    (postThread "t" "t" (some "a") (some "b") (some "r") true
        (some ⟨"u1", "c1"⟩) none []).created = [] ++ [("a", ⟨"u1", "c1"⟩)] ∧
    (postThread "t" "t" (some "a") (some "b") (some "r") true
        (some ⟨"u2", "c2"⟩) none ([] ++ [("a", ⟨"u1", "c1"⟩)])).created =
      [] ++ [("a", ⟨"u1", "c1"⟩)] ++ [("a", ⟨"u2", "c2"⟩)] :=
  c2_no_rollback_duplicate_on_retry "t" "a" "b" "r" ⟨"u1", "c1"⟩ ⟨"u2", "c2"⟩ []
    (by decide) (by decide)

/-- C3: whenever the first submission succeeds, the second submission is
made with a reply reference whose root and parent both equal the first
post's identity; and when the first submission fails, no second submission
is made at all, so the second is sequenced strictly after the first's
success. -/
theorem c3_reply_root_parent_sequencing (secret f s row : String)
    (out2 : Option PostRef) (created : List (String × PostRef))
    (hf : f ≠ "") (hs : s ≠ "") :
    (∀ p1 : PostRef,
      (postThread secret secret (some f) (some s) (some row) true (some p1) out2
          created).calls =
        [⟨f, linkFacets f.data, none⟩, ⟨s, linkFacets s.data, some ⟨p1, p1⟩⟩]) ∧
    (postThread secret secret (some f) (some s) (some row) true none out2
        created).calls = [⟨f, linkFacets f.data, none⟩] := by
  constructor
  · intro p1
    cases out2 <;> simp [postThread, hf, hs]
  · cases out2 <;> simp [postThread, hf, hs]

/-- Concrete check of C3: the second call carries the first post's uri and
cid as both root and parent. -/
theorem c3_reply_root_parent_sequencing_witness :
    (postThread "t" "t" (some "a") (some "b") (some "r") true
        (some ⟨"u1", "c1"⟩) (some ⟨"u2", "c2"⟩) []).calls =
      [⟨"a", linkFacets "a".data, none⟩,
       ⟨"b", linkFacets "b".data, some ⟨⟨"u1", "c1"⟩, ⟨"u1", "c1"⟩⟩⟩] :=
  (c3_reply_root_parent_sequencing "t" "a" "b" "r" (some ⟨"u2", "c2"⟩) []
    (by decide) (by decide)).1 ⟨"u1", "c1"⟩

/-- C9: a request with an empty or missing text is rejected with 400 before
anything is submitted to the provider, and every submitted post text equals
the corresponding input text unchanged (no truncation). -/
theorem c9_nonempty_check_no_truncation (secret f s : String)
    (row : Option String) (rOk : Bool) (out1 out2 : Option PostRef)
    (created : List (String × PostRef)) :
    ((f = "" ∨ s = "") →
      postThread secret secret (some f) (some s) row rOk out1 out2 created =
        ⟨.badRequest, [], created, 0⟩) ∧
    (postThread secret secret none (some s) row rOk out1 out2 created).resp =
      .badRequest ∧
    (postThread secret secret (some f) none row rOk out1 out2 created).resp =
      .badRequest ∧
    (∀ c ∈ (postThread secret secret (some f) (some s) row rOk out1 out2
        created).calls, c.text = f ∨ c.text = s) := by
    refine ⟨?_, ?_, ?_, ?_⟩
    · intro h
      rcases h with h | h <;> simp [postThread, h]
    · simp [postThread]
    · simp [postThread]
    · intro c hc
      by_cases hf : f = ""
      · simp [postThread, hf] at hc
      · by_cases hs : s = ""
        · simp [postThread, hs] at hc
        · cases row with
          | none => simp [postThread, hf, hs] at hc
          | some r =>
            cases rOk with
            | false => simp [postThread, hf, hs] at hc
            | true =>
              cases out1 with
              | none =>
                simp [postThread, hf, hs] at hc
                simp [hc]
              | some p1 =>
                cases out2 <;>
                  · simp [postThread, hf, hs] at hc
                    rcases hc with hc | hc <;> simp [hc]

/-- Concrete check of C9: an empty first text is rejected with 400 and no
provider call, and an accepted request submits the exact input text. -/
theorem c9_nonempty_check_no_truncation_witness :
    postThread "t" "t" (some "") (some "b") (some "r") true none none [] =
      ⟨.badRequest, [], [], 0⟩ ∧
    ((⟨"hello", linkFacets "hello".data, none⟩ : ProviderCall).text = "hello" ∨
     (⟨"hello", linkFacets "hello".data, none⟩ : ProviderCall).text = "world") :=
  ⟨(c9_nonempty_check_no_truncation "t" "" "b" (some "r") true none none []).1
      (Or.inl rfl),
    (c9_nonempty_check_no_truncation "t" "hello" "world" (some "r") true
        (some ⟨"u", "c"⟩) none []).2.2.2
      ⟨"hello", linkFacets "hello".data, none⟩ (by decide)⟩

/-- C10: a request whose X-Internal-Token header differs from the
configured token is answered 401 with no credential-store read, no
provider call and no change to the provider state, for every body —
so the token comparison happens before body validation. -/
theorem c10_token_checked_first (secret tok : String)
    (firstText? secondText? : Option String) (row : Option String)
    (rOk : Bool) (out1 out2 : Option PostRef)
    (created : List (String × PostRef)) (h : tok ≠ secret) :
    postThread secret tok firstText? secondText? row rOk out1 out2 created =
      ⟨.unauthorized, [], created, 0⟩ ∧
    Resp.status .unauthorized = 401 := by
  exact ⟨by simp [postThread, h], rfl⟩

/-- Concrete check of C10: wrong token with an invalid body still yields
401, not 400. -/
theorem c10_token_checked_first_witness :
    postThread "t" "x" none none none false none none [] =
      ⟨.unauthorized, [], [], 0⟩ ∧
    Resp.status .unauthorized = 401 :=
  c10_token_checked_first "t" "x" none none none false none none [] (by decide)

/-! ## Restore and the fourth-revision publish route
(web/server.js lines 952-995 for the route; the Restore internals live in
the @atproto/oauth-client-node dependency, which is not part of this
repository, so they are modelled from the spec, section 4.4). -/

/-- One stored credential: an opaque token plus whether the access token
is at or past expiry. -/
structure CredRec where
  token : Nat
  expired : Bool
  deriving Repr, DecidableEq

/-- Outcome of a Restore. -/
inductive RestoreRes where
  | okCred (token : Nat)
  | noSession
  | sessionExpired
  deriving Repr, DecidableEq

/-- Modelled from the spec: the Restore entry point of the Authorization
Flow Controller (section 4.4), whose implementation is inside the
external OAuth client and therefore missing from src.  It loads the
CredentialRecord for the subject; with no record it fails with
NoSessionError and performs no provider call; with a fresh record it
returns it without a refresh; with an expired record it performs exactly
one refresh-token exchange, persisting the refreshed record on success
and deleting the stale record on rejection (SessionExpiredError).
Returns the outcome, the updated store, and the number of refresh-token
exchanges submitted to the provider. -/
def restoreSpec (store : List (String × CredRec)) (sub : String)
    (providerAccepts : Bool) (freshTok : Nat) :
    RestoreRes × List (String × CredRec) × Nat :=
  match store.lookup sub with
  | none => (.noSession, store, 0)
  | some c =>
    if c.expired then
      if providerAccepts then
        (.okCred freshTok,
          store.map fun r => if r.1 = sub then (sub, ⟨freshTok, false⟩) else r, 1)
      else
        (.sessionExpired, store.filter fun r => r.1 ≠ sub, 1)
    else
      (.okCred c.token, store, 0)

/-- HTTP responses of the fourth-revision /post-thread route. -/
inductive Resp4 where
  | forbidden
  | badRequest
  | noSession
  | sessionInvalid
  | postFailed
  | ok
  deriving Repr, DecidableEq

/-- Status codes of the fourth-revision route: 403 for a bad internal
token, 400 for missing text, 401 both for a missing session row and for a
failed restore, 500 for a failed submission. -/
def Resp4.status : Resp4 → Nat
  | .forbidden => 403
  | .badRequest => 400
  | .noSession => 401
  | .sessionInvalid => 401
  | .postFailed => 500
  | .ok => 200

/-- The fourth revision trims each text and rejects it when the trimmed
form is empty: equivalently, when every character is whitespace. -/
def trimEmpty (s : String) : Bool := s.data.all jsSpace

/-- Result of one invocation of the fourth-revision route: response,
store after the call (Restore may rewrite or delete the record), number
of refresh-token exchanges, number of post submissions sent to the
provider. -/
structure PT4Result where
  resp : Resp4
  store : List (String × CredRec)
  refreshes : Nat
  postCalls : Nat
  deriving Repr, DecidableEq

/-- The fourth-revision /post-thread handler (web/server.js 952-995):
token check (403), trimmed non-empty text check (400), select the most
recent session row (the store list is kept most-recent-first, modelling
ORDER BY updated_at DESC LIMIT 1), 401 when none, then client.restore on
that row's subject — a restore failure is caught as 401 — and finally
the two submissions, whose failure is caught as 500. -/
def postThread4 (secret tok f s : String) (store : List (String × CredRec))
    (providerAccepts : Bool) (freshTok : Nat) (out1 out2 : Bool) : PT4Result :=
  if tok ≠ secret then ⟨.forbidden, store, 0, 0⟩
  else if trimEmpty f ∨ trimEmpty s then ⟨.badRequest, store, 0, 0⟩
  else
    match store with
    | [] => ⟨.noSession, store, 0, 0⟩
    | (sub, _) :: _ =>
      match restoreSpec store sub providerAccepts freshTok with
      | (.okCred _, store', n) =>
        if out1 then
          if out2 then ⟨.ok, store', n, 2⟩ else ⟨.postFailed, store', n, 2⟩
        else ⟨.postFailed, store', n, 1⟩
      | (.noSession, store', n) => ⟨.noSession, store', n, 0⟩
      | (.sessionExpired, store', n) => ⟨.sessionInvalid, store', n, 0⟩

/-- C5: with no CredentialRecord in the store, a publish attempt answers
401 without a single post submission, and Restore itself yields
NoSessionError with zero refresh-token exchanges, so no provider call of
any kind is made. -/
theorem c5_no_record_no_provider_call (secret f s sub : String)
    (pa : Bool) (ft : Nat) (out1 out2 : Bool)
    (hf : trimEmpty f = false) (hs : trimEmpty s = false) :
    postThread4 secret secret f s [] pa ft out1 out2 = ⟨.noSession, [], 0, 0⟩ ∧
    Resp4.status .noSession = 401 ∧
    restoreSpec [] sub pa ft = (.noSession, [], 0) := by
  refine ⟨by simp [postThread4, hf, hs], rfl, by simp [restoreSpec]⟩

/-- Concrete check of C5 at explicit inputs. -/
theorem c5_no_record_no_provider_call_witness :
    postThread4 "t" "t" "a" "b" [] true 7 true true = ⟨.noSession, [], 0, 0⟩ ∧
    Resp4.status .noSession = 401 ∧
    restoreSpec [] "did:x" true 7 = (.noSession, [], 0) :=
  c5_no_record_no_provider_call "t" "a" "b" "did:x" true 7 true true
    (by decide) (by decide)

/-- C6: when the provider rejects the refresh token, the publish attempt
answers 401 after exactly one refresh-token exchange and zero post
submissions, the stale CredentialRecord is deleted, and a subsequent
attempt fails fast with the no-session 401 and no further refresh. -/
theorem c6_rejected_refresh_deletes_record (secret f s sub : String)
    (tok0 ft : Nat) (out1 out2 out1' out2' : Bool)
    (hf : trimEmpty f = false) (hs : trimEmpty s = false) :
    postThread4 secret secret f s [(sub, ⟨tok0, true⟩)] false ft out1 out2 =
      ⟨.sessionInvalid, [], 1, 0⟩ ∧
    Resp4.status .sessionInvalid = 401 ∧
    postThread4 secret secret f s [] false ft out1' out2' =
      ⟨.noSession, [], 0, 0⟩ := by
  refine ⟨?_, rfl, by simp [postThread4, hf, hs]⟩
  simp [postThread4, restoreSpec, hf, hs]

/-- Concrete check of C6 at explicit inputs. -/
theorem c6_rejected_refresh_deletes_record_witness :
    postThread4 "t" "t" "a" "b" [("did:x", ⟨3, true⟩)] false 7 true true =
      ⟨.sessionInvalid, [], 1, 0⟩ ∧
    Resp4.status .sessionInvalid = 401 ∧
    postThread4 "t" "t" "a" "b" [] false 7 true true = ⟨.noSession, [], 0, 0⟩ :=
  c6_rejected_refresh_deletes_record "t" "a" "b" "did:x" 3 7 true true true true
    (by decide) (by decide)

/-! ## The key/value upsert of the third web revision
(web/server.js lines 499-552): the oauth_sessions table there is
key / val / updated_at, with updated_at NOT NULL DEFAULT now(), and
kv.set runs INSERT .. ON CONFLICT (key) DO UPDATE SET val = EXCLUDED.val,
updated_at = COALESCE(oauth_sessions.updated_at, now()). -/

/-- One row of that revision's oauth_sessions table.  updatedAt is kept
as an Option to mirror COALESCE literally, though the column is declared
NOT NULL with DEFAULT now() so it is always populated. -/
structure KVRow where
  val : String
  updatedAt : Option Nat
  deriving Repr, DecidableEq

/-- The kv.set upsert of web/server.js lines 535-541 against
oauth_sessions: a fresh key inserts the row, whose updated_at column
takes its DEFAULT now(); an existing key keeps its row position and gets
val replaced, while updated_at is set to COALESCE of the existing row's
updated_at and now(). -/
def kvSet (store : List (String × KVRow)) (key val : String) (now : Nat) :
    List (String × KVRow) :=
  match store.lookup key with
  | none => store ++ [(key, ⟨val, some now⟩)]
  | some old =>
    store.map fun r => if r.1 = key then (key, ⟨val, some (old.updatedAt.getD now)⟩) else r

/-- C7 fails on the third web revision: upserting an existing key leaves
updated_at at its old value, because COALESCE is applied to the existing
(never-null) column rather than now().  Writing key k at time 0 and again
at time 5 leaves updated_at = 0, where the claim requires 5. -/
theorem c7_kvset_upsert_keeps_stale_timestamp :
    kvSet (kvSet [] "k" "v1" 0) "k" "v2" 5 = [("k", ⟨"v2", some 0⟩)] ∧
    (kvSet (kvSet [] "k" "v1" 0) "k" "v2" 5).lookup "k" ≠ some ⟨"v2", some 5⟩ := by
  exact ⟨by decide, by decide⟩

/-! ## Callback persistence and getAgent subject selection
(web/server.js, first revision: the /oauth/callback insert at lines
190-196 and getAgent at lines 206-243).  The oauth_sessions rows are
modelled as sub paired with updated_at; the session payload itself is
opaque and irrelevant to subject selection. -/

/-- The callback's upsert keyed by session.sub, with updated_at = now():
on conflict the row's timestamp is refreshed, otherwise a row is added. -/
def callbackUpsert (store : List (String × Nat)) (sub : String) (now : Nat) :
    List (String × Nat) :=
  if (store.lookup sub).isSome then
    store.map fun r => if r.1 = sub then (sub, now) else r
  else store ++ [(sub, now)]

/-- getAgent's row selection: ORDER BY updated_at DESC LIMIT 1, i.e. a
row of maximal updated_at. -/
def latestRow (store : List (String × Nat)) : Option (String × Nat) :=
  store.foldl
    (fun acc r => match acc with
      | none => some r
      | some a => if a.2 < r.2 then some r else some a)
    none

/-- Modelled from the spec: the Restore entry point materializes the
stored credential of exactly the subject it is given (section 4.4), the
OAuth client implementation being outside this repository.  It yields
the subject of the restored credential when the record exists. -/
def restoredSubject (store : List (String × Nat)) (sub : String) : Option String :=
  if (store.lookup sub).isSome then some sub else none

/-- getAgent of the first web revision, reduced to the subject it ends up
authenticated as: take the most recently updated row, read its sub
column, and restore that subject. -/
def getAgentSubject (store : List (String × Nat)) : Option String :=
  match latestRow store with
  | none => none
  | some (sub, _) => restoredSubject store sub

lemma foldl_latest_dominant (sub : String) (t : Nat) :
    ∀ (rows : List (String × Nat)) (acc : Option (String × Nat)),
      (∀ r ∈ rows, r.2 < t) → (∀ a, acc = some a → a.2 < t) →
      List.foldl
        (fun acc r => match acc with
          | none => some r
          | some a => if a.2 < r.2 then some r else some a)
        acc (rows ++ [(sub, t)]) = some (sub, t) := by
  intro rows
  induction rows with
  | nil =>
    intro acc _ hacc
    cases acc with
    | none => simp
    | some a =>
      have := hacc a rfl
      simp [this]
  | cons r rs ih =>
    intro acc hall hacc
    simp only [List.cons_append, List.foldl_cons]
    cases acc with
    | none =>
      exact ih (some r) (fun x hx => hall x (List.mem_cons_of_mem _ hx))
        (fun a ha => by cases ha; exact hall r (List.mem_cons_self _ _))
    | some a =>
      apply ih _ (fun x hx => hall x (List.mem_cons_of_mem _ hx))
      intro b hb
      have hb' : (if a.2 < r.2 then some r else some a) = some b := hb
      by_cases hlt : a.2 < r.2
      · rw [if_pos hlt] at hb'
        cases hb'
        exact hall r (List.mem_cons_self _ _)
      · rw [if_neg hlt] at hb'
        cases hb'
        exact hacc a rfl

lemma latestRow_dominant (rows : List (String × Nat)) (sub : String) (t : Nat)
    (hall : ∀ r ∈ rows, r.2 < t) :
    latestRow (rows ++ [(sub, t)]) = some (sub, t) :=
  foldl_latest_dominant sub t rows none hall (fun a ha => by cases ha)

lemma lookup_append_self (rows : List (String × Nat)) (sub : String) (t : Nat) :
    ((rows ++ [(sub, t)]).lookup sub).isSome := by
  induction rows with
  | nil => simp [List.lookup]
  | cons r rs ih =>
    simp only [List.cons_append, List.lookup]
    split
    · simp
    · exact ih

/-- C8: completing authorization for subject sub at a time strictly later
than every stored row's timestamp makes getAgent select exactly that row
and restore exactly that subject: the credential Restore yields has the
subject Complete returned. -/
theorem c8_complete_restore_same_subject (store : List (String × Nat))
    (sub : String) (t : Nat) (hfresh : (store.lookup sub).isSome = false)
    (hall : ∀ r ∈ store, r.2 < t) :
    getAgentSubject (callbackUpsert store sub t) = some sub := by
  have hstore : callbackUpsert store sub t = store ++ [(sub, t)] := by
    unfold callbackUpsert
    rw [hfresh]
    simp
  rw [hstore]
  unfold getAgentSubject
  rw [latestRow_dominant store sub t hall]
  unfold restoredSubject
  simp [lookup_append_self store sub t]

/-- Concrete check of C8: with one stale row present, completing for a
new subject restores that subject. -/
theorem c8_complete_restore_same_subject_witness :
    getAgentSubject (callbackUpsert [("did:old", 0)] "did:new" 1) =
      some "did:new" :=
  c8_complete_restore_same_subject [("did:old", 0)] "did:new" 1 (by decide)
    (by decide)

/-! ## The Refresh Coordinator under concurrency

Modelled from the spec: the token-refresh serialization (spec sections
4.3, 4.4 and 5) is implemented inside the external OAuth client driven
by the advisory-lock object pgLock of src/unnamed/part_001 lines
278-292, so the refresh path itself is not in src.  Following the spec's
withLock contract, each of two concurrent Restore callers for the same
subject runs: acquire the subject's exclusive lock (blocking while it is
held); under the lock, check the stored access token and, only if it is
still expired, perform one refresh-token exchange and persist the
refreshed credential; release the lock; read the stored credential as
its result.  Token version 0 is the expired stored token, version 1 the
refreshed one.  Every interleaving of the two callers is a schedule of
booleans (true steps caller A); a blocked acquire is a stutter step. -/

/-- Shared state of the two concurrent Restore callers: the stored token
version, the provider's refresh-exchange counter, the lock, each
caller's program counter (0 acquire, 1 check-and-refresh, 2 release,
3 read result, 4 done) and each caller's observed token. -/
structure RCState where
  token : Nat
  refreshes : Nat
  locked : Bool
  pcA : Fin 5
  pcB : Fin 5
  obsA : Option Nat
  obsB : Option Nat
  deriving Repr, DecidableEq

/-- One step of caller A: a blocked acquire stutters; the critical
section refreshes only when the stored token is still expired. -/
def stepA (s : RCState) : RCState :=
  match s.pcA.val with
  | 0 => if s.locked then s else { s with locked := true, pcA := 1 }
  | 1 =>
    if s.token = 0 then { s with token := 1, refreshes := s.refreshes + 1, pcA := 2 }
    else { s with pcA := 2 }
  | 2 => { s with locked := false, pcA := 3 }
  | 3 => { s with obsA := some s.token, pcA := 4 }
  | _ => s

/-- One step of caller B, symmetric to stepA. -/
def stepB (s : RCState) : RCState :=
  match s.pcB.val with
  | 0 => if s.locked then s else { s with locked := true, pcB := 1 }
  | 1 =>
    if s.token = 0 then { s with token := 1, refreshes := s.refreshes + 1, pcB := 2 }
    else { s with pcB := 2 }
  | 2 => { s with locked := false, pcB := 3 }
  | 3 => { s with obsB := some s.token, pcB := 4 }
  | _ => s

/-- Run a schedule: true steps caller A, false steps caller B. -/
def rcRun (sched : List Bool) (s : RCState) : RCState :=
  match sched with
  | [] => s
  | b :: rest => rcRun rest (if b then stepA s else stepB s)

/-- Initial state: stored token expired, no refresh yet, lock free. -/
def rcInit : RCState := ⟨0, 0, false, 0, 0, none, none⟩

/-- The canonical reachable state for a pair of program counters: all
other fields are functions of how far the two callers have advanced. -/
def mkState (pa pb : Fin 5) : RCState :=
  { token := if 2 ≤ pa.val ∨ 2 ≤ pb.val then 1 else 0
    refreshes := if 2 ≤ pa.val ∨ 2 ≤ pb.val then 1 else 0
    locked := (pa.val = 1 ∨ pa.val = 2) ∨ (pb.val = 1 ∨ pb.val = 2)
    pcA := pa
    pcB := pb
    obsA := if pa.val = 4 then some 1 else none
    obsB := if pb.val = 4 then some 1 else none }

/-- Mutual exclusion: the two callers are never both inside the
lock-protected region. -/
def mutexOk (pa pb : Fin 5) : Prop :=
  ¬((pa.val = 1 ∨ pa.val = 2) ∧ (pb.val = 1 ∨ pb.val = 2))

instance (pa pb : Fin 5) : Decidable (mutexOk pa pb) := by
  unfold mutexOk
  infer_instance

/-- Reachability invariant of the system. -/
def rcInv (s : RCState) : Prop :=
  ∃ pa pb : Fin 5, mutexOk pa pb ∧ s = mkState pa pb

lemma stepA_preserves :
    ∀ pa pb : Fin 5, mutexOk pa pb →
      ∃ pa' : Fin 5, stepA (mkState pa pb) = mkState pa' pb ∧ mutexOk pa' pb := by
  decide

lemma stepB_preserves :
    ∀ pa pb : Fin 5, mutexOk pa pb →
      ∃ pb' : Fin 5, stepB (mkState pa pb) = mkState pa pb' ∧ mutexOk pa pb' := by
  decide

lemma rcInv_step (s : RCState) (b : Bool) (h : rcInv s) :
    rcInv (if b then stepA s else stepB s) := by
  obtain ⟨pa, pb, hmx, hs⟩ := h
  subst hs
  cases b with
  | true =>
    obtain ⟨pa', heq, hmx'⟩ := stepA_preserves pa pb hmx
    exact ⟨pa', pb, hmx', by simpa using heq⟩
  | false =>
    obtain ⟨pb', heq, hmx'⟩ := stepB_preserves pa pb hmx
    exact ⟨pa, pb', hmx', by simpa using heq⟩

lemma rcInv_run (sched : List Bool) :
    ∀ s : RCState, rcInv s → rcInv (rcRun sched s) := by
  induction sched with
  | nil => intro s h; exact h
  | cons b rest ih =>
    intro s h
    exact ih _ (rcInv_step s b h)

/-- C4: under every interleaving of two concurrent Restore calls for the
same subject starting from an expired stored token, once both callers
have completed, exactly one refresh-token exchange was submitted to the
provider and both callers observe the same refreshed token. -/
theorem c4_serialized_refresh (sched : List Bool)
    (hdone : (rcRun sched rcInit).pcA = 4 ∧ (rcRun sched rcInit).pcB = 4) :
    (rcRun sched rcInit).refreshes = 1 ∧
    (rcRun sched rcInit).obsA = (rcRun sched rcInit).obsB ∧
    (rcRun sched rcInit).obsA = some 1 := by
  have hinv : rcInv (rcRun sched rcInit) :=
    rcInv_run sched rcInit ⟨0, 0, by decide, by decide⟩
  obtain ⟨pa, pb, _, hs⟩ := hinv
  rw [hs] at hdone ⊢
  have hpa : pa = (4 : Fin 5) := hdone.1
  have hpb : pb = (4 : Fin 5) := hdone.2
  subst hpa
  subst hpb
  decide

/-- Concrete check of C4 on the schedule that runs caller A to
completion and then caller B. -/
theorem c4_serialized_refresh_witness :
    ((rcRun [true, true, true, true, false, false, false, false] rcInit).pcA = 4 ∧
     (rcRun [true, true, true, true, false, false, false, false] rcInit).pcB = 4) ∧
    ((rcRun [true, true, true, true, false, false, false, false] rcInit).refreshes = 1 ∧
     (rcRun [true, true, true, true, false, false, false, false] rcInit).obsA =
       (rcRun [true, true, true, true, false, false, false, false] rcInit).obsB ∧
     (rcRun [true, true, true, true, false, false, false, false] rcInit).obsA = some 1) :=
  ⟨by decide,
    c4_serialized_refresh [true, true, true, true, false, false, false, false]
      (by decide)⟩

end BlazersRoundup
